import Mathlib

set_option maxRecDepth 8000

namespace Roboprojekt

/-- The four cardinal directions of `util.Direction`.  Each value carries a degree
value and a unit coordinate delta (`coor_delta`). -/
inductive Direction : Type
  | N
  | E
  | S
  | W
deriving DecidableEq, Repr

/-- Degree value of a direction (`Direction._value_` in `util.py`). -/
def Direction.value : Direction → Int
  | .N => 0
  | .E => 90
  | .S => 180
  | .W => 270

/-- `Direction.coor_delta`: the unit step a robot takes when moving in the direction. -/
def Direction.coor_delta : Direction → Int × Int
  | .N => (0, 1)
  | .E => (1, 0)
  | .S => (0, -1)
  | .W => (-1, 0)

/-- `util.Rotation`: the three rotations, with their degree values. -/
inductive Rotation : Type
  | LEFT
  | RIGHT
  | U_TURN
deriving DecidableEq, Repr

/-- Degree value of a rotation. -/
def Rotation.value : Rotation → Int
  | .LEFT => -90
  | .RIGHT => 90
  | .U_TURN => 180

/-- Recover a direction from a degree value.  In the source this is the enum lookup
`Direction(deg)`; all degree values reached by the code are sums of direction and
rotation values reduced mod 360, hence in {0, 90, 180, 270}. -/
def directionOfValue (n : Int) : Direction :=
  if n = 0 then .N else if n = 90 then .E else if n = 180 then .S else .W

/-- `Direction.get_new_direction`: `Direction((self.value + where_to.value) % 360)`.
Lean's `%` on `Int` agrees with Python's (result has the sign of the divisor). -/
def Direction.get_new_direction (d : Direction) (where_to : Rotation) : Direction :=
  directionOfValue ((d.value + where_to.value) % 360)

/-- The `direction_out` configuration of a belt tile
(`BeltTile.transform_direction`): `Direction.N` for a straight belt (degree 0), or a
`Rotation` for a curved belt / crossroads. -/
inductive BeltOut : Type
  | straight
  | turn (r : Rotation)
deriving DecidableEq, Repr

/-- Degree value of a belt exit configuration: `Direction.N.value = 0` for straight,
the rotation's value otherwise.  Used in the composition
`tile.direction.get_new_direction(out)`, whose Python body only reads `.value`. -/
def BeltOut.value : BeltOut → Int
  | .straight => 0
  | .turn r => r.value

/-- `util.get_next_coordinates`: add the direction's delta to the coordinates. -/
def get_next_coordinates (coordinates : Int × Int) (direction : Direction) : Int × Int :=
  (coordinates.1 + direction.coor_delta.1, coordinates.2 + direction.coor_delta.2)

/-- Program cards (`backend.Card` subclasses): a movement card carries a priority and
a distance, a rotation card a priority and a rotation. -/
inductive Card : Type
  | movement (priority : Int) (distance : Int)
  | rotationCard (priority : Int) (rotation : Rotation)
deriving DecidableEq, Repr

/-- `backend.Robot`: mutable robot record.  `path`/`path_front` are the avatar image
paths (irrelevant to the rules, kept for fidelity). -/
structure Robot where
  direction : Direction
  path : String
  path_front : String
  coordinates : Int × Int
  start_coordinates : Int × Int
  program : List Card
  lives : Int
  flags : Int
  damages : Int
deriving DecidableEq, Repr

def emptyStr : String := ""

/-- `Robot.__init__`: starting coordinates equal the placement coordinates, the
program is the hard-coded test hand, lives 3, flags 0, damages 4. -/
def Robot.init (direction : Direction) (path path_front : String)
    (coordinates : Int × Int) : Robot :=
  { direction := direction
    path := path
    path_front := path_front
    coordinates := coordinates
    start_coordinates := coordinates
    program := [Card.rotationCard 200 Rotation.LEFT, Card.movement 100 2]
    lives := 3
    flags := 0
    damages := 4 }

def defaultRobot : Robot := Robot.init Direction.N emptyStr emptyStr (0, 0)

/-- `Robot.inactive`: a robot is inactive iff its coordinates are the sentinel (-1, -1). -/
def Robot.inactive (r : Robot) : Bool := r.coordinates = (-1, -1)

/-- `Robot.die`: lose one life and move to the sentinel coordinates. -/
def Robot.die (r : Robot) : Robot :=
  { r with lives := r.lives - 1, coordinates := (-1, -1) }

/-- `Robot.rotate`: compose the facing direction with a rotation. -/
def Robot.rotate (r : Robot) (where_to : Rotation) : Robot :=
  { r with direction := r.direction.get_new_direction where_to }

/-- `util.Tile` and its subclasses as a tagged union.  Every variant stores the tile
orientation; variant-specific JSON properties become fields.  The avatar `path` of a
tile is dropped (it only feeds rendering and start-square detection by file name). -/
inductive Tile : Type
  | ground (direction : Direction)
  | wall (direction : Direction)
  | starting (direction : Direction)
  | hole (direction : Direction)
  | belt (direction : Direction) (direction_out : BeltOut) (express : Bool)
  | pusher (direction : Direction) (register : Int)
  | gear (direction : Direction) (move_direction : Rotation)
  | laser (direction : Direction) (laser_strength : Int) (laser_start : Bool)
  | flag (direction : Direction) (flag_number : Int)
  | repair (direction : Direction) (new_start : Bool)
deriving DecidableEq, Repr

/-- The stored orientation of a tile (`Tile.direction`). -/
def Tile.direction : Tile → Direction
  | .ground d => d
  | .wall d => d
  | .starting d => d
  | .hole d => d
  | .belt d _ _ => d
  | .pusher d _ => d
  | .gear d _ => d
  | .laser d _ _ => d
  | .flag d _ => d
  | .repair d _ => d

/-- `Tile.can_move_from`: only `WallTile` overrides the base `True`; a wall blocks
leaving the tile in the wall's own direction. -/
def Tile.can_move_from (t : Tile) (direction : Direction) : Bool :=
  match t with
  | .wall wd => decide (wd ≠ direction)
  | _ => true

/-- `Tile.can_move_to`: a wall blocks entering the tile from the opposite direction
(the wall's direction turned by a U-turn). -/
def Tile.can_move_to (t : Tile) (direction : Direction) : Bool :=
  match t with
  | .wall wd => decide (wd.get_new_direction Rotation.U_TURN ≠ direction)
  | _ => true

/-- `Tile.kill_robot`: only `HoleTile` overrides the base no-op, calling `robot.die()`. -/
def Tile.kill_robot (t : Tile) (r : Robot) : Robot :=
  match t with
  | .hole _ => r.die
  | _ => r

/-- Whether a tile is a `HoleTile`. -/
def Tile.isHole : Tile → Bool
  | .hole _ => true
  | _ => false

/-- Whether a tile is a `BeltTile`. -/
def Tile.isBelt : Tile → Bool
  | .belt _ _ _ => true
  | _ => false

/-- `backend.State`: the board as an association list from coordinates to the tile
stack, the robot sequence, the board sizes and the round counter `game_round`. -/
structure State where
  _board : List ((Int × Int) × List Tile)
  robots : List Robot
  sizes : Nat × Nat
  game_round : Int
deriving DecidableEq, Repr

/-- Association-list lookup modelling the Python dict `state._board`. -/
def boardLookup : List ((Int × Int) × List Tile) → (Int × Int) → Option (List Tile)
  | [], _ => none
  | e :: rest, c => if e.1 = c then some e.2 else boardLookup rest c

/-- `State.get_tiles`: the stored tile stack, or a single implicit `HoleTile` for
coordinates outside the board. -/
def State.get_tiles (s : State) (coordinates : Int × Int) : List Tile :=
  match boardLookup s._board coordinates with
  | some tiles => tiles
  | none => [Tile.hole Direction.N]

/-- Modelled from the spec: `PusherTile.push_robot` and `RepairTile.repair_robot` read
`state.register`, but `backend.State` defines no `register` attribute.  Per the spec,
GameState owns "the current register number (1..5, cycling)", and `backend.py` keeps
that counter in `game_round` (cards are indexed by it and the end-of-round sweep fires
at value 5), so we model `state.register` as the state's `game_round` value. -/
def State.register (s : State) : Int := s.game_round

/-- `backend.check_wall`: every tile of the current cell must allow moving out in the
travel direction and every tile of the destination cell must allow moving in.  (The
Python code leaves `move_from`/`move_to` unbound on an empty tile stack — a
`NameError`; real boards never store an empty stack, and the model treats an empty
scan as passing, which is the only behavior the loop structure can produce without
raising.) -/
def check_wall (coordinates : Int × Int) (direction : Direction) (s : State) : Bool :=
  (s.get_tiles coordinates).all (fun t => t.can_move_from direction) &&
    (s.get_tiles (get_next_coordinates coordinates direction)).all
      (fun t => t.can_move_to direction)

/-- Robot at a list index (robot objects are identified by their index in
`state.robots`, the Python object identity). -/
def getRobot (s : State) (i : Nat) : Robot := s.robots.getD i defaultRobot

/-- Replace the robot at an index (in-place mutation of `state.robots[i]`). -/
def setRobot (s : State) (i : Nat) (r : Robot) : State :=
  { s with robots := s.robots.set i r }

/-- Mutation `self.coordinates = c` for the robot at index `i`. -/
def setRobotCoords (s : State) (i : Nat) (c : Int × Int) : State :=
  setRobot s i { getRobot s i with coordinates := c }

/-- The tile scan of `Robot.check_hole`: apply `kill_robot` of each tile in turn and
stop as soon as the robot is inactive. -/
def holeScan : List Tile → Robot → Robot
  | [], r => r
  | t :: rest, r =>
    let r2 := t.kill_robot r
    if r2.inactive then r2 else holeScan rest r2

/-- `Robot.check_hole`: scan the tiles under the robot's coordinates. -/
def Robot.check_hole (r : Robot) (s : State) : Robot :=
  holeScan (s.get_tiles r.coordinates) r

/-- `check_hole` applied to the robot at index `i` of the state. -/
def stateCheckHole (i : Nat) (s : State) : State :=
  setRobot s i ((getRobot s i).check_hole s)

/-- `Robot.move` (effect-driven movement, used by belts and pushers) for the robot at
index `i`: repeat `dist` times — stop for good at a wall; if any robot stands on the
destination, skip the step (the Python loop has no `break` here, it just does not
move); otherwise take the step and run the hole check. -/
def Robot.move (i : Nat) (direction : Direction) : Nat → State → State
  | 0, s => s
  | dist + 1, s =>
    let c := (getRobot s i).coordinates
    if check_wall c direction s then
      let nxt := get_next_coordinates c direction
      if s.robots.any (fun r => decide (r.coordinates = nxt)) then
        Robot.move i direction dist s
      else
        Robot.move i direction dist (stateCheckHole i (setRobotCoords s i nxt))
    else s

/-- Index of the first robot of the list standing on the given coordinates
(`for robot in state.robots: ... state.robots.index(robot)` in `Robot.walk`). -/
def findRobotAt : List Robot → (Int × Int) → Option Nat
  | [], _ => none
  | r :: rest, c =>
    if r.coordinates = c then some 0
    else Option.map (fun k => k + 1) (findRobotAt rest c)

/-- `Robot.walk` (card-driven movement) for the robot at index `i`, with a fuel bound
on the recursion depth of the push cascade (the Python recursion is unbounded; any
fuel larger than the number of robots reproduces it exactly).  Per step: stop for
good at a wall; if a robot occupies the destination, walk it one cell first and
advance only if it left the destination; the loop then continues with the remaining
distance either way (Python has no `break` in the blocked branch). -/
def Robot.walk : Nat → Nat → Nat → Direction → State → State
  | 0, _, _, _, s => s
  | _ + 1, _, 0, _, s => s
  | fuel + 1, i, dist + 1, direction, s =>
    let c := (getRobot s i).coordinates
    if check_wall c direction s then
      let nxt := get_next_coordinates c direction
      match findRobotAt s.robots nxt with
      | some j =>
        let s2 := Robot.walk fuel j 1 direction s
        if (getRobot s2 j).coordinates ≠ nxt then
          Robot.walk fuel i dist direction (stateCheckHole i (setRobotCoords s2 i nxt))
        else
          Robot.walk fuel i dist direction s2
      | none =>
        Robot.walk fuel i dist direction (stateCheckHole i (setRobotCoords s i nxt))
    else s

/-- `robot.rotate` applied in place to the robot at index `i`. -/
def stateRotate (i : Nat) (where_to : Rotation) (s : State) : State :=
  setRobot s i ((getRobot s i).rotate where_to)

/-- `Robot.walk` with the signed distance of a movement card: a negative distance
rotates the robot by a U-turn, walks the absolute distance forward (with the
direction defaulting to the robot's new facing) and rotates back; the original
`for step in range(distance)` loop is then empty. -/
def Robot.walkDistance (fuel : Nat) (i : Nat) (distance : Int)
    (dirOpt : Option Direction) (s : State) : State :=
  let d := dirOpt.getD (getRobot s i).direction
  if distance < 0 then
    let s1 := stateRotate i Rotation.U_TURN s
    let s2 := Robot.walk fuel i (-distance).toNat (getRobot s1 i).direction s1
    stateRotate i Rotation.U_TURN s2
  else
    Robot.walk fuel i distance.toNat d s

/-- `PusherTile.push_robot`: when the register parity matches the tile's configured
parity, move the robot one cell opposite the tile's facing direction (effect-driven). -/
def Tile.push_robot (t : Tile) (i : Nat) (s : State) : State :=
  match t with
  | .pusher pdir reg =>
    if s.register % 2 = reg then
      Robot.move i (pdir.get_new_direction Rotation.U_TURN) 1 s
    else s
  | _ => s

/-- `GearTile.rotate_robot`: rotate the robot by the gear's configured rotation;
all other tiles are no-ops. -/
def Tile.rotate_robot (t : Tile) (r : Robot) : Robot :=
  match t with
  | .gear _ rot => r.rotate rot
  | _ => r

/-- `FlagTile.collect_flag`: the respawn anchor is updated on every visit; the flag
counter is incremented only when the flag's number is the robot's count plus one. -/
def Tile.collect_flag (t : Tile) (r : Robot) : Robot :=
  match t with
  | .flag _ n =>
    let r2 := { r with start_coordinates := r.coordinates }
    if r2.flags + 1 = n then { r2 with flags := r2.flags + 1 } else r2
  | _ => r

/-- `RepairTile.repair_robot`: on register 5 remove one damage point if any; update
the respawn anchor when the tile is configured as a new start. -/
def Tile.repair_robot (t : Tile) (r : Robot) (s : State) : Robot :=
  match t with
  | .repair _ new_start =>
    let r2 := if s.register = 5 then
        (if 0 < r.damages then { r with damages := r.damages - 1 } else r)
      else r
    if new_start then { r2 with start_coordinates := r2.coordinates } else r2
  | _ => r

/-- The reboot `set_robots_for_new_turn` applies to an inactive survivor: back to
the respawn anchor, zero damage, default heading. -/
def rebootRobot (r : Robot) : Robot :=
  { r with
    coordinates := r.start_coordinates
    damages := 0
    direction := Direction.N }

/-- `backend.set_robots_for_new_turn`: drop robots without lives, then reboot every
inactive survivor at its respawn anchor with zero damage and the default heading. -/
def set_robots_for_new_turn (s : State) : State :=
  { s with
    robots :=
      (s.robots.filter (fun r => decide (0 < r.lives))).map fun r =>
        if r.inactive then rebootRobot r else r }

/-- The tail of `backend.apply_tile_effects`: the sweep runs only when the round
counter equals 5. -/
def end_of_round_check (s : State) : State :=
  if s.game_round = 5 then set_robots_for_new_turn s else s

/-- The selection of `backend.get_robots_on_belts`: a belt tile is collected when its
`express` flag equals the pass's flag, and additionally always when the pass's flag is
`False` (the normal pass re-collects express belts, mirroring
`if express is tile.express: ... elif express is False: ...`). -/
def beltSelect (t : Tile) (express : Bool) : Bool :=
  match t with
  | .belt _ _ e => if express = e then true else if express = false then true else false
  | _ => false

/-- Pair every robot index with each collected belt tile under it, in robot order
(`get_robots_on_belts` builds two parallel lists; entries here are their zip). -/
def beltCollect (s : State) (express : Bool) : Nat → List Robot → List (Nat × Tile)
  | _, [] => []
  | i, r :: rest =>
    ((s.get_tiles r.coordinates).filter (fun t => beltSelect t express)).map
        (fun t => (i, t))
      ++ beltCollect s express (i + 1) rest

/-- `backend.get_robots_on_belts` (robots paired with their belt tiles). -/
def get_robots_on_belts (s : State) (express : Bool) : List (Nat × Tile) :=
  beltCollect s express 0 s.robots

/-- Modelled from the spec: `move_belts` computes the transport direction as
`tile.direction.get_new_direction(tile.belt_rotation)`, but no class in the source
defines a `belt_rotation` attribute; `BeltTile` stores the configured exit (straight
or a rotation) under the name `direction_out`, and the spec says a belt "carries a
robot one cell in a configured direction", so we model `belt_rotation` as the stored
`direction_out` value. -/
def Tile.belt_rotation : Tile → BeltOut
  | .belt _ bout _ => bout
  | _ => .straight

/-- The direction a belt moves its robot:
`tile.direction.get_new_direction(tile.belt_rotation)` (degree addition mod 360). -/
def beltMoveDirection (t : Tile) : Direction :=
  directionOfValue ((t.direction.value + t.belt_rotation.value) % 360)

/-- `BeltTile.rotate_robot_on_belt`: the `U_TURN` crossroads special case rotates
right or left depending on the entry direction; other rotating belts rotate only a
robot that entered along the tile's direction; straight belts and non-belts are no-ops. -/
def Tile.rotate_robot_on_belt (t : Tile) (r : Robot) (direction : Direction) : Robot :=
  match t with
  | .belt bdir bout _ =>
    match bout with
    | .turn Rotation.U_TURN =>
      if bdir.get_new_direction Rotation.RIGHT = direction then r.rotate Rotation.RIGHT
      else r.rotate Rotation.LEFT
    | .turn rot => if direction = bdir then r.rotate rot else r
    | .straight => r
  | _ => r

/-- The `for tile in state.get_tiles(robot.coordinates)` loop after a successful belt
move: let every tile at the landing cell apply its rotate-on-entry effect. -/
def beltRotateScan : List Tile → Direction → Robot → Robot
  | [], _, r => r
  | t :: rest, d, r => beltRotateScan rest d (t.rotate_robot_on_belt r d)

/-- Rotate-on-entry applied in place to the robot at index `i`. -/
def beltRotateAll (i : Nat) (d : Direction) (s : State) : State :=
  setRobot s i (beltRotateScan (s.get_tiles (getRobot s i).coordinates) d (getRobot s i))

/-- One `for robot, tile in zip(robots_to_move, belt_tiles)` pass of `move_belts`,
with Python's iterate-while-removing semantics: the cursor `pos` advances by one each
iteration over the current list, so removing the current entry skips the one after
it; the pass ends when the cursor passes the (shrinking) end of the list.  An entry
is resolved (moved one cell effect-driven, then rotate-on-entry if it landed) and
removed only when its destination is not among the pass-start coordinates `snap` of
the pending robots; otherwise it is left pending.  `gas` bounds the iteration count;
the initial list length always suffices. -/
def beltPassAux : Nat → Nat → List (Nat × Tile) → List (Int × Int) → State →
    List (Nat × Tile) × State
  | 0, _, pend, _, s => (pend, s)
  | gas + 1, pos, pend, snap, s =>
    match pend.get? pos with
    | none => (pend, s)
    | some entry =>
      let d := beltMoveDirection entry.2
      let xy := get_next_coordinates (getRobot s entry.1).coordinates d
      if xy ∈ snap then beltPassAux gas (pos + 1) pend snap s
      else
        let s2 := Robot.move entry.1 d 1 s
        let s3 :=
          if (getRobot s2 entry.1).coordinates = xy then beltRotateAll entry.1 d s2
          else s2
        beltPassAux gas (pos + 1) (pend.eraseIdx pos) snap s3

/-- One full pass over the pending list, starting the cursor at 0. -/
def move_belts_pass (pend : List (Nat × Tile)) (snap : List (Int × Int)) (s : State) :
    List (Nat × Tile) × State :=
  beltPassAux pend.length 0 pend snap s

/-- The `while robots_to_move:` loop of `move_belts`, with fuel for the number of
passes: each pass snapshots the pending robots' coordinates and scans the list.  The
Python loop has no stop condition other than the pending list becoming empty. -/
def beltScan : Nat → List (Nat × Tile) → State → List (Nat × Tile) × State
  | 0, pend, s => (pend, s)
  | _ + 1, [], s => ([], s)
  | fuel + 1, e :: rest, s =>
    let pend := e :: rest
    let snap := pend.map fun p => (getRobot s p.1).coordinates
    let ps := move_belts_pass pend snap s
    beltScan fuel ps.1 ps.2

/-- `backend.move_belts`: resolve the express pass, then the pass over all belts. -/
def move_belts (fuel : Nat) (s : State) : State :=
  let s1 := (beltScan fuel (get_robots_on_belts s true) s).2
  (beltScan fuel (get_robots_on_belts s1 false) s1).2

/-- Whether a tile is a `LaserTile` with the given beam direction (the follow-up test
of the inner tile loop of `shoot_robot`). -/
def Tile.isLaserWithDirection (t : Tile) (d : Direction) : Bool :=
  match t with
  | .laser ldir _ _ => decide (ldir = d)
  | _ => false

/-- Whether a tile is a `LaserTile` with `laser_start` set. -/
def Tile.isLaserStartHit : Tile → Bool
  | .laser _ _ st => st
  | _ => false

/-- The value of the Python loop variable `tile` after
`for tile in new_tiles: if isinstance(tile, LaserTile) and tile.direction == ...: break`:
the first follow-up laser tile in the beam direction, otherwise the last tile of the
stack, otherwise (empty stack — `NameError` territory in Python) the value left over
from the previous iteration. -/
def laserScanTiles (tiles : List Tile) (ldir : Direction) (prev : Option Tile) :
    Option Tile :=
  match tiles.find? (fun t => t.isLaserWithDirection ldir) with
  | some t => some t
  | none =>
    match tiles.getLast? with
    | some t => some t
    | none => prev

/-- The `while hit:` beam trace of `LaserTile.shoot_robot`, walking from the robot's
cell toward the laser's origin (opposite the tile direction).  Returns `some false`
when another robot intervenes, `some true` when the scan stops at a laser-start tile
(the robot is hit), and `none` when the fuel runs out — the Python loop has no other
exit and runs forever on a board where neither is ever found. -/
def laserHitScan (ldir : Direction) (coordsList : List (Int × Int)) (s : State) :
    Nat → (Int × Int) → Option Tile → Option Bool
  | 0, _, _ => none
  | fuel + 1, xy, prev =>
    let xy2 := get_next_coordinates xy (ldir.get_new_direction Rotation.U_TURN)
    if xy2 ∈ coordsList then some false
    else
      let tiles := s.get_tiles xy2
      let tv := laserScanTiles tiles ldir prev
      match tv with
      | some t =>
        if t.isLaserStartHit then some true
        else laserHitScan ldir coordsList s fuel xy2 tv
      | none => laserHitScan ldir coordsList s fuel xy2 tv

/-- Modelled from the spec: `LaserTile.shoot_robot` calls `robot.be_damaged(strength)`
but `backend.Robot` defines no such method.  Per the spec, damage lies in 0..10 and
"damage accumulation beyond a fatal threshold produces death, not an out-of-range
value", so the model accumulates the laser strength while the result stays within 10
and otherwise lets the robot die. -/
def Robot.be_damaged (r : Robot) (strength : Int) : Robot :=
  if r.damages + strength ≤ 10 then { r with damages := r.damages + strength } else r.die

/-- `LaserTile.shoot_robot` for the robot at index `i`: a robot on a laser-start tile
is hit outright; otherwise the beam is traced back toward the origin (with fuel) and
the robot is hit only when the trace stops at a laser-start tile. -/
def Tile.shoot_robot (fuel : Nat) (t : Tile) (i : Nat) (s : State) : State :=
  match t with
  | .laser ldir strength lstart =>
    let hit : Option Bool :=
      if lstart then some true
      else
        laserHitScan ldir (s.robots.map fun r => r.coordinates) s fuel
          (getRobot s i).coordinates none
    match hit with
    | some true => setRobot s i ((getRobot s i).be_damaged strength)
    | _ => s
  | _ => s

/-- `backend.get_robots_to_start`, with the starting coordinates supplied directly
(the source derives them from start-square image file names, a presentation concern)
and `random.choice` modelled by an arbitrary index oracle `pick` consulted at each
iteration `k`: while avatar paths remain, one is chosen, removed from the pool, and a
robot with default heading is created on the starting coordinate. -/
def get_robots_to_start :
    List (Int × Int) → List (String × String) → (Nat → Nat) → Nat → List Robot
  | [], _, _, _ => []
  | c :: rest, robot_paths, pick, k =>
    match robot_paths with
    | [] => get_robots_to_start rest [] pick (k + 1)
    | _ :: _ =>
      let idx := pick k % robot_paths.length
      let pr := robot_paths.getD idx (emptyStr, emptyStr)
      Robot.init Direction.N pr.1 pr.2 c ::
        get_robots_to_start rest (robot_paths.eraseIdx idx) pick (k + 1)

/-! Concrete game states used as test inputs for the claims. -/

/-- Two robots on adjacent opposing straight belts: the robot at (0,0) rides an
east-bound belt, the robot at (1,0) a west-bound belt; each belt's destination is the
other pending robot's cell. -/
def beltStateA : State :=
  { _board :=
      [((0, 0), [Tile.belt Direction.E BeltOut.straight false]),
       ((1, 0), [Tile.belt Direction.W BeltOut.straight false])]
    robots :=
      [Robot.init Direction.N emptyStr emptyStr (0, 0),
       Robot.init Direction.N emptyStr emptyStr (1, 0)]
    sizes := (2, 1)
    game_round := 1 }

/-- The pending list of the normal belt pass on `beltStateA`. -/
def beltPendA : List (Nat × Tile) := get_robots_on_belts beltStateA false

/-- A mover at (0,0) facing north with an occupant at (0,1) whose own exit is blocked
by a wall on its tile facing north. -/
def sWalkBlocked : State :=
  { _board := [((0, 1), [Tile.wall Direction.N])]
    robots :=
      [Robot.init Direction.N emptyStr emptyStr (0, 0),
       Robot.init Direction.N emptyStr emptyStr (0, 1)]
    sizes := (1, 2)
    game_round := 1 }

/-- A mover at (0,-1) facing west whose destination is the sentinel cell (-1,-1),
occupied by an inactive robot; the board defines no cells, so every pushed step lands
in an implicit hole. -/
def sWalkSentinel : State :=
  { _board := []
    robots :=
      [Robot.init Direction.W emptyStr emptyStr (0, -1),
       Robot.init Direction.N emptyStr emptyStr (-1, -1)]
    sizes := (0, 0)
    game_round := 1 }

/-- A robot on an odd pusher at (0,0) with a wall on the same tile facing south, the
push direction; the round counter is 1 (odd), so the pusher fires. -/
def pushStateBlocked : State :=
  { _board := [((0, 0), [Tile.pusher Direction.N 1, Tile.wall Direction.S])]
    robots := [Robot.init Direction.N emptyStr emptyStr (0, 0)]
    sizes := (1, 1)
    game_round := 1 }

/-- A robot on an odd pusher at (0,0) with a free ground cell at (0,-1) in the push
direction. -/
def pushStateFree : State :=
  { _board :=
      [((0, 0), [Tile.pusher Direction.N 1]), ((0, -1), [Tile.ground Direction.N])]
    robots := [Robot.init Direction.N emptyStr emptyStr (0, 0)]
    sizes := (1, 2)
    game_round := 1 }

/-- A single non-start laser tile at (0,0) with a robot on it and nothing behind it:
the backward beam trace leaves the board immediately and only ever sees the implicit
out-of-board hole tile. -/
def laserStateA : State :=
  { _board := [((0, 0), [Tile.laser Direction.N 1 false])]
    robots := [Robot.init Direction.N emptyStr emptyStr (0, 0)]
    sizes := (1, 1)
    game_round := 1 }

/-- A robot that already sits at the sentinel (-1,-1) while the board defines that
cell with a ground tile stacked above a hole tile: the hole-check scan stops at the
inactive robot before reaching the hole. -/
def sHoleTrap : State :=
  { _board := [((-1, -1), [Tile.ground Direction.N, Tile.hole Direction.N])]
    robots := [Robot.init Direction.N emptyStr emptyStr (-1, -1)]
    sizes := (1, 1)
    game_round := 1 }

/-- End-of-round sweep scenario: a robot with no lives left, an inactive survivor
with damage and a non-default facing, and an untouched active robot
(`rDead`, `rInactive`, `rActive` below). -/
def sweepState : State :=
  { _board := []
    robots :=
      [{ Robot.init Direction.E emptyStr emptyStr (5, 5) with
          lives := 0, coordinates := (-1, -1) },
       { Robot.init Direction.E emptyStr emptyStr (3, 4) with
          lives := 2, damages := 7, coordinates := (-1, -1) },
       { Robot.init Direction.S emptyStr emptyStr (2, 2) with lives := 3 }]
    sizes := (6, 6)
    game_round := 5 }

/-- Effect-driven move scenario: a mover at (0,0) facing north with another robot on
the destination (0,1). -/
def sMoveOcc : State :=
  { _board := []
    robots :=
      [Robot.init Direction.N emptyStr emptyStr (0, 0),
       Robot.init Direction.N emptyStr emptyStr (0, 1)]
    sizes := (1, 2)
    game_round := 1 }

/-- A one-cell board used to exercise `State.get_tiles` on and off the board. -/
def tilesState : State :=
  { _board := [((0, 0), [Tile.ground Direction.N, Tile.flag Direction.N 1])]
    robots := []
    sizes := (1, 1)
    game_round := 1 }

/-- A robot on the hole-free cell (0,0) of `tilesState`. -/
def rOnGround : Robot := Robot.init Direction.N emptyStr emptyStr (0, 0)

/-- A robot off the board of `tilesState` (implicit hole). -/
def rOffBoard : Robot := Robot.init Direction.N emptyStr emptyStr (5, 5)

/-- The robot of `sweepState` with no lives left. -/
def rDead : Robot :=
  { Robot.init Direction.E emptyStr emptyStr (5, 5) with
    lives := 0, coordinates := (-1, -1) }

/-- The inactive survivor of `sweepState`. -/
def rInactive : Robot :=
  { Robot.init Direction.E emptyStr emptyStr (3, 4) with
    lives := 2, damages := 7, coordinates := (-1, -1) }

/-- The active robot of `sweepState`. -/
def rActive : Robot :=
  { Robot.init Direction.S emptyStr emptyStr (2, 2) with lives := 3 }

/-! Helper lemmas. -/

theorem list_getD_set_ne {α : Type} (l : List α) (i j : Nat) (a d : α) (h : j ≠ i) :
    (l.set i a).getD j d = l.getD j d := by
  induction l generalizing i j with
  | nil => simp [List.set]
  | cons x xs ih =>
    cases i with
    | zero =>
      cases j with
      | zero => exact absurd rfl h
      | succ m => simp [List.set, List.getD]
    | succ n =>
      cases j with
      | zero => simp [List.set, List.getD]
      | succ m =>
        simp only [List.set, List.getD_cons_succ]
        exact ih n m (fun e => h (by omega))

theorem list_getD_set_self {α : Type} (l : List α) (i : Nat) (a d : α)
    (h : i < l.length) : (l.set i a).getD i d = a := by
  induction l generalizing i with
  | nil => simp at h
  | cons x xs ih =>
    cases i with
    | zero => rfl
    | succ n =>
      simp only [List.set, List.getD_cons_succ]
      exact ih n (by simpa using h)

theorem list_get?_set_ne {α : Type} (l : List α) (i j : Nat) (a : α) (h : j ≠ i) :
    (l.set i a).get? j = l.get? j := by
  induction l generalizing i j with
  | nil => simp [List.set]
  | cons x xs ih =>
    cases i with
    | zero =>
      cases j with
      | zero => exact absurd rfl h
      | succ m => simp [List.set]
    | succ n =>
      cases j with
      | zero => simp [List.set]
      | succ m =>
        simp only [List.set, List.get?_cons_succ]
        exact ih n m (fun e => h (by omega))

theorem setRobot_board (s : State) (i : Nat) (r : Robot) :
    (setRobot s i r)._board = s._board := rfl

theorem setRobot_get_tiles (s : State) (i : Nat) (r : Robot) (c : Int × Int) :
    (setRobot s i r).get_tiles c = s.get_tiles c := rfl

theorem setRobot_length (s : State) (i : Nat) (r : Robot) :
    (setRobot s i r).robots.length = s.robots.length := by
  simp [setRobot]

theorem setRobot_get?_ne (s : State) (i j : Nat) (r : Robot) (h : j ≠ i) :
    (setRobot s i r).robots.get? j = s.robots.get? j := by
  simp only [setRobot]
  exact list_get?_set_ne s.robots i j r h

theorem getRobot_setRobot_self (s : State) (i : Nat) (r : Robot)
    (h : i < s.robots.length) : getRobot (setRobot s i r) i = r := by
  simp only [getRobot, setRobot]
  exact list_getD_set_self s.robots i r defaultRobot h

/-- If `findRobotAt` returns an index, the robot at that index stands on the
searched coordinates. -/
theorem findRobotAt_coords :
    ∀ (l : List Robot) (c : Int × Int) (j : Nat),
      findRobotAt l c = some j → (l.getD j defaultRobot).coordinates = c := by
  intro l
  induction l with
  | nil => intro c j h; simp [findRobotAt] at h
  | cons r rest ih =>
    intro c j h
    by_cases hr : r.coordinates = c
    · simp only [findRobotAt, if_pos hr] at h
      cases h
      simpa using hr
    · simp only [findRobotAt, if_neg hr] at h
      match hrec : findRobotAt rest c with
      | none => rw [hrec] at h; simp at h
      | some k =>
        rw [hrec] at h
        simp only [Option.map_some'] at h
        cases h
        simpa using ih c k hrec

/-- A walk whose first wall check fails does nothing, whatever the fuel and distance. -/
theorem walk_wall_stop (s : State) (i : Nat) (d : Direction)
    (hw : check_wall (getRobot s i).coordinates d s = false) :
    ∀ (f dist : Nat), Robot.walk f i dist d s = s := by
  intro f dist
  match f, dist with
  | 0, _ => rfl
  | _ + 1, 0 => rfl
  | f + 1, dist + 1 => simp [Robot.walk, hw]

/-- A move whose first wall check fails does nothing. -/
theorem move_wall_stop (s : State) (i : Nat) (d : Direction)
    (hw : check_wall (getRobot s i).coordinates d s = false) :
    ∀ (dist : Nat), Robot.move i d dist s = s := by
  intro dist
  match dist with
  | 0 => rfl
  | dist + 1 => simp [Robot.move, hw]

/-- If an occupant blocks the mover's destination and that occupant's one-cell walk
leaves the whole state unchanged (at every recursion depth), the mover's entire
remaining walk leaves the state unchanged: every remaining iteration of the loop
re-runs the same failed push. -/
theorem walk_blocked_stop (s : State) (i j : Nat) (d : Direction)
    (hj : findRobotAt s.robots
        (get_next_coordinates (getRobot s i).coordinates d) = some j)
    (hstuck : ∀ f2, Robot.walk f2 j 1 d s = s) :
    ∀ (f dist : Nat), Robot.walk f i dist d s = s := by
  intro f
  induction f with
  | zero => intro dist; rfl
  | succ n ih =>
    intro dist
    match dist with
    | 0 => rfl
    | dist + 1 =>
      by_cases hw : check_wall (getRobot s i).coordinates d s = true
      · have hc : (getRobot s j).coordinates =
            get_next_coordinates (getRobot s i).coordinates d :=
          findRobotAt_coords s.robots _ j hj
        simp only [Robot.walk, hw, if_true, hj, hstuck n, hc, ne_eq,
          not_true_eq_false, if_false]
        exact ih dist
      · have hw2 : check_wall (getRobot s i).coordinates d s = false := by
          simpa using hw
        simp [Robot.walk, hw2]

/-- Frame property of a full effect-driven move: the robot list keeps its length and
every robot other than the mover is untouched. -/
theorem move_frame (i : Nat) (d : Direction) :
    ∀ (dist : Nat) (s : State),
      (Robot.move i d dist s).robots.length = s.robots.length ∧
        ∀ j, j ≠ i → (Robot.move i d dist s).robots.get? j = s.robots.get? j := by
  intro dist
  induction dist with
  | zero => intro s; exact ⟨rfl, fun _ _ => rfl⟩
  | succ n ih =>
    intro s
    by_cases hw : check_wall (getRobot s i).coordinates d s = true
    · by_cases hocc : s.robots.any (fun r =>
          decide (r.coordinates =
            get_next_coordinates (getRobot s i).coordinates d)) = true
      · simp only [Robot.move, hw, if_true, hocc]
        exact ih s
      · have hocc2 : s.robots.any (fun r =>
            decide (r.coordinates =
              get_next_coordinates (getRobot s i).coordinates d)) = false := by
          simpa using hocc
        simp only [Robot.move, hw, if_true, hocc2, Bool.false_eq_true, if_false]
        set s2 := stateCheckHole i
          (setRobotCoords s i (get_next_coordinates (getRobot s i).coordinates d))
          with hs2
        have hlen : s2.robots.length = s.robots.length := by
          simp [hs2, stateCheckHole, setRobot, setRobotCoords]
        have hne : ∀ j, j ≠ i → s2.robots.get? j = s.robots.get? j := by
          intro j hj
          simp only [hs2, stateCheckHole, setRobotCoords]
          rw [setRobot_get?_ne _ _ _ _ hj, setRobot_get?_ne _ _ _ _ hj]
        obtain ⟨ihl, ihn⟩ := ih s2
        exact ⟨ihl.trans hlen, fun j hj => (ihn j hj).trans (hne j hj)⟩
    · have hw2 : check_wall (getRobot s i).coordinates d s = false := by simpa using hw
      rw [move_wall_stop s i d hw2]
      exact ⟨rfl, fun _ _ => rfl⟩

/-- An effect-driven step whose destination is occupied is skipped: the step with
`dist + 1` steps remaining equals the move with `dist` steps remaining. -/
theorem move_occupied_skip (s : State) (i : Nat) (d : Direction) (dist : Nat)
    (hocc : s.robots.any (fun r =>
      decide (r.coordinates =
        get_next_coordinates (getRobot s i).coordinates d)) = true) :
    Robot.move i d (dist + 1) s = Robot.move i d dist s := by
  by_cases hw : check_wall (getRobot s i).coordinates d s = true
  · simp [Robot.move, hw, hocc]
  · have hw2 : check_wall (getRobot s i).coordinates d s = false := by simpa using hw
    rw [move_wall_stop s i d hw2, move_wall_stop s i d hw2]

theorem kill_robot_not_hole (t : Tile) (r : Robot) (h : t.isHole = false) :
    t.kill_robot r = r := by
  cases t <;> simp_all [Tile.kill_robot, Tile.isHole]

theorem kill_robot_hole (t : Tile) (r : Robot) (h : t.isHole = true) :
    t.kill_robot r = r.die := by
  cases t <;> simp_all [Tile.kill_robot, Tile.isHole]

/-- The hole scan over a stack without a hole leaves the robot unchanged. -/
theorem holeScan_no_hole :
    ∀ (tiles : List Tile) (r : Robot), tiles.any Tile.isHole = false →
      holeScan tiles r = r := by
  intro tiles
  induction tiles with
  | nil => intro r _; rfl
  | cons t rest ih =>
    intro r h
    rw [List.any_cons, Bool.or_eq_false_iff] at h
    simp only [holeScan, kill_robot_not_hole t r h.1]
    by_cases hr : r.inactive = true
    · simp [hr]
    · have hr2 : r.inactive = false := by simpa using hr
      simp [hr2, ih r h.2]

/-- The hole scan over a stack containing a hole kills a robot that is not already at
the sentinel: the scan reaches the first hole (non-holes are no-ops and cannot make
the robot inactive) and the robot dies exactly once. -/
theorem holeScan_hole :
    ∀ (tiles : List Tile) (r : Robot), r.coordinates ≠ (-1, -1) →
      tiles.any Tile.isHole = true → holeScan tiles r = r.die := by
  intro tiles
  induction tiles with
  | nil => intro r _ h; simp at h
  | cons t rest ih =>
    intro r hc h
    by_cases ht : t.isHole = true
    · have hdie : (r.die).inactive = true := by simp [Robot.die, Robot.inactive]
      simp [holeScan, kill_robot_hole t r ht, hdie]
    · have ht2 : t.isHole = false := by simpa using ht
      rw [List.any_cons, ht2, Bool.false_or] at h
      have hr2 : r.inactive = false := by
        simp [Robot.inactive, hc]
      simp only [holeScan, kill_robot_not_hole t r ht2, hr2, Bool.false_eq_true,
        if_false]
      exact ih r hc h

/-- A one-cell effect-driven move with a passing wall check, an unoccupied
destination and no hole there puts the mover exactly on the destination. -/
theorem move_one_clear (s : State) (i : Nat) (d : Direction)
    (hi : i < s.robots.length)
    (hw : check_wall (getRobot s i).coordinates d s = true)
    (hocc : s.robots.any (fun r =>
      decide (r.coordinates =
        get_next_coordinates (getRobot s i).coordinates d)) = false)
    (hhole : (s.get_tiles
      (get_next_coordinates (getRobot s i).coordinates d)).any Tile.isHole = false) :
    (getRobot (Robot.move i d 1 s) i).coordinates =
      get_next_coordinates (getRobot s i).coordinates d := by
  set nxt := get_next_coordinates (getRobot s i).coordinates d with hnxt
  simp only [Robot.move, hw, if_true, hocc, Bool.false_eq_true, if_false]
  set s1 := setRobotCoords s i nxt with hs1
  have hi1 : i < s1.robots.length := by
    simpa [hs1, setRobotCoords, setRobot] using hi
  have hr1 : getRobot s1 i = { getRobot s i with coordinates := nxt } := by
    simp only [hs1, setRobotCoords]
    exact getRobot_setRobot_self s i _ hi
  have htiles : s1.get_tiles nxt = s.get_tiles nxt := rfl
  have hch : (getRobot s1 i).check_hole s1 = getRobot s1 i := by
    rw [Robot.check_hole, hr1]
    simp only [htiles]
    exact holeScan_no_hole _ _ (by simpa using hhole)
  show (getRobot (stateCheckHole i s1) i).coordinates = nxt
  rw [stateCheckHole, hch, getRobot_setRobot_self s1 i _ hi1, hr1]

/-- On `beltStateA` the belt while-loop makes no progress: each robot's destination
is the other pending robot's snapshot coordinate, so one full pass resolves and
removes nothing, and every pass leaves the pending list and the state unchanged. -/
theorem beltScan_stuck :
    ∀ fuel, beltScan fuel beltPendA beltStateA = (beltPendA, beltStateA) := by
  intro fuel
  induction fuel with
  | zero => rfl
  | succ n ih =>
    have h1 : beltScan (n + 1) beltPendA beltStateA =
        beltScan n beltPendA beltStateA := rfl
    rw [h1, ih]

/-- On `laserStateA` the backward beam trace never resolves: from any cell on the
negative half of the beam column it only ever meets the implicit out-of-board hole
tile, never a robot and never a laser-start tile. -/
theorem laser_scan_diverges :
    ∀ (fuel : Nat) (y : Int) (p : Option Tile), y ≤ 0 →
      laserHitScan Direction.N [(0, 0)] laserStateA fuel (0, y) p = none := by
  intro fuel
  induction fuel with
  | zero => intro y p _; rfl
  | succ n ih =>
    intro y p hy
    have hxy2 : get_next_coordinates (0, y)
        (Direction.N.get_new_direction Rotation.U_TURN) = (0, y - 1) := by
      have : Direction.N.get_new_direction Rotation.U_TURN = Direction.S := by decide
      rw [this]
      simp [get_next_coordinates, Direction.coor_delta]
      ring
    have hmem : (((0 : Int), y - 1) ∈ [((0 : Int), (0 : Int))]) = False := by
      simp only [List.mem_singleton, Prod.mk.injEq, eq_self_iff_true, true_and]
      simp only [eq_iff_iff, iff_false]
      intro h
      omega
    have htiles : laserStateA.get_tiles (0, y - 1) = [Tile.hole Direction.N] := by
      have hne : ¬(((0 : Int), (0 : Int)) = ((0 : Int), y - 1)) := by
        intro h
        have := congrArg Prod.snd h
        simp at this
        omega
      simp only [State.get_tiles, laserStateA, boardLookup]
      rw [if_neg hne]
    simp only [laserHitScan, hxy2]
    rw [if_neg (by rw [hmem]; exact id)]
    rw [htiles]
    have hscan : laserScanTiles [Tile.hole Direction.N] Direction.N p =
        some (Tile.hole Direction.N) := by
      simp [laserScanTiles, List.find?, Tile.isLaserWithDirection]
    rw [hscan]
    simp only [Tile.isLaserStartHit, Bool.false_eq_true, if_false]
    exact ih (y - 1) (some (Tile.hole Direction.N)) (by omega)


/-- C1: the claim states that each pass of the belt fixed-point scan in `move_belts`
either moves and removes a pending robot or stops when no pending robot can move, so
the belt phase completes in bounded iterations even under mutual blocking.  The code
refutes this: on `beltStateA` (two robots on adjacent opposing belts, each target
cell being the other pending robot's snapshot coordinate) every pass removes nothing
and changes nothing, the pending list stays nonempty, and the `while robots_to_move:`
loop therefore never terminates. -/
theorem C1_belt_fixed_point_diverges :
    beltPendA = get_robots_on_belts beltStateA false ∧
    beltPendA ≠ [] ∧
    get_robots_on_belts beltStateA true = [] ∧
    (∀ fuel, beltScan fuel beltPendA beltStateA = (beltPendA, beltStateA)) :=
  ⟨rfl, by decide, by decide, beltScan_stuck⟩

/-- C4: the claim states that the laser beam trace terminates for every board and
robot position.  The code refutes this: on `laserStateA` (a robot on a lone non-start
laser tile with neither a robot nor a laser-start tile behind it) the `while hit:`
loop of `shoot_robot` walks off the board over implicit hole tiles forever — the
fuel-indexed trace never resolves at any depth, and the fuel-indexed `shoot_robot`
never reaches a hit/miss decision. -/
theorem C4_laser_trace_diverges :
    (∀ fuel,
      laserHitScan Direction.N (laserStateA.robots.map fun r => r.coordinates)
        laserStateA fuel (getRobot laserStateA 0).coordinates none = none) ∧
    (∀ fuel,
      Tile.shoot_robot fuel (Tile.laser Direction.N 1 false) 0 laserStateA =
        laserStateA) := by
  have hbase : ∀ fuel,
      laserHitScan Direction.N [((0 : Int), (0 : Int))] laserStateA fuel (0, 0) none =
        none :=
    fun fuel => laser_scan_diverges fuel 0 none (le_refl 0)
  constructor
  · intro fuel
    exact hbase fuel
  · intro fuel
    show (match (if (false : Bool) then some true
        else laserHitScan Direction.N (laserStateA.robots.map fun r => r.coordinates)
          laserStateA fuel (getRobot laserStateA 0).coordinates none : Option Bool) with
      | some true => setRobot laserStateA 0 ((getRobot laserStateA 0).be_damaged 1)
      | _ => laserStateA) = laserStateA
    rw [if_neg (by simp)]
    have h2 : laserHitScan Direction.N
        (laserStateA.robots.map fun r => r.coordinates) laserStateA fuel
        (getRobot laserStateA 0).coordinates none = none := hbase fuel
    rw [h2]

/-- C7: effect-driven movement (`Robot.move`, used by belts and pushers) never
changes any robot other than the mover — the robot list keeps its length and every
other index holds exactly the same robot record (coordinates, direction, lives,
damage, flags) — and a step whose destination cell is occupied by any robot leaves
the mover's coordinates unchanged for that step (the step is skipped). -/
theorem C7_move_frame_claim (s : State) (i : Nat) (d : Direction) (dist : Nat) :
    (Robot.move i d dist s).robots.length = s.robots.length ∧
    (∀ j, j ≠ i → (Robot.move i d dist s).robots.get? j = s.robots.get? j) ∧
    (s.robots.any (fun r =>
        decide (r.coordinates =
          get_next_coordinates (getRobot s i).coordinates d)) = true →
      Robot.move i d (dist + 1) s = Robot.move i d dist s) :=
  ⟨(move_frame i d dist s).1, (move_frame i d dist s).2,
    move_occupied_skip s i d dist⟩

/-- C7 witness: on `sMoveOcc` the destination of the mover (index 0) is occupied, the
first step is skipped, and the occupant (index 1) is untouched by a longer move. -/
theorem C7_move_frame_claim_witness :
    sMoveOcc.robots.any (fun r =>
        decide (r.coordinates =
          get_next_coordinates (getRobot sMoveOcc 0).coordinates Direction.N)) =
      true ∧
    Robot.move 0 Direction.N 1 sMoveOcc = Robot.move 0 Direction.N 0 sMoveOcc ∧
    (Robot.move 0 Direction.N 3 sMoveOcc).robots.get? 1 = sMoveOcc.robots.get? 1 :=
  ⟨by decide,
    (C7_move_frame_claim sMoveOcc 0 Direction.N 0).2.2 (by decide),
    (C7_move_frame_claim sMoveOcc 0 Direction.N 3).2.1 1 (by decide)⟩

/-- C8: `FlagTile.collect_flag` on a flag numbered `n` always re-anchors the robot's
respawn point to its current coordinates, increments the flag counter by exactly one
iff the robot's count equals `n - 1`, and changes nothing else. -/
theorem C8_flag_collect (fdir : Direction) (n : Int) (r : Robot) :
    (Tile.collect_flag (Tile.flag fdir n) r).start_coordinates = r.coordinates ∧
    (r.flags = n - 1 → (Tile.collect_flag (Tile.flag fdir n) r).flags = r.flags + 1) ∧
    (r.flags ≠ n - 1 → (Tile.collect_flag (Tile.flag fdir n) r).flags = r.flags) ∧
    (Tile.collect_flag (Tile.flag fdir n) r).coordinates = r.coordinates ∧
    (Tile.collect_flag (Tile.flag fdir n) r).lives = r.lives ∧
    (Tile.collect_flag (Tile.flag fdir n) r).damages = r.damages ∧
    (Tile.collect_flag (Tile.flag fdir n) r).direction = r.direction := by
  simp only [Tile.collect_flag]
  by_cases h : r.flags + 1 = n
  · rw [if_pos h]
    refine ⟨rfl, fun _ => rfl, fun hne => absurd (by omega) hne, rfl, rfl, rfl, rfl⟩
  · rw [if_neg h]
    refine ⟨rfl, fun he => absurd (by omega) h, fun _ => rfl, rfl, rfl, rfl, rfl⟩

/-- C8 witness: a fresh robot (flag count 0) collects flag 1 (count goes to 1) but
not flag 5 (count unchanged, anchor still updated). -/
theorem C8_flag_collect_witness :
    (defaultRobot.flags = 1 - 1 ∧
      (Tile.collect_flag (Tile.flag Direction.N 1) defaultRobot).flags =
        defaultRobot.flags + 1) ∧
    (defaultRobot.flags ≠ 5 - 1 ∧
      (Tile.collect_flag (Tile.flag Direction.N 5) defaultRobot).flags =
        defaultRobot.flags ∧
      (Tile.collect_flag (Tile.flag Direction.N 5) defaultRobot).start_coordinates =
        defaultRobot.coordinates) :=
  ⟨⟨by decide, (C8_flag_collect Direction.N 1 defaultRobot).2.1 (by decide)⟩,
   ⟨by decide, (C8_flag_collect Direction.N 5 defaultRobot).2.2.1 (by decide),
    (C8_flag_collect Direction.N 5 defaultRobot).1⟩⟩

/-- C9: `State.get_tiles` returns the stored tile stack for a board coordinate and a
list containing exactly one hole tile — in particular a nonempty list — for every
coordinate outside the board; it is a total function (never raises). -/
theorem C9_get_tiles (s : State) (c : Int × Int) :
    (∀ ts, boardLookup s._board c = some ts → s.get_tiles c = ts) ∧
    (boardLookup s._board c = none →
      s.get_tiles c = [Tile.hole Direction.N] ∧ s.get_tiles c ≠ []) := by
  constructor
  · intro ts h
    simp [State.get_tiles, h]
  · intro h
    simp [State.get_tiles, h]

/-- C9 witness: on `tilesState`, (0,0) is on the board and returns its stored stack;
(7,7) is off the board and returns the singleton hole. -/
theorem C9_get_tiles_witness :
    (boardLookup tilesState._board (0, 0) =
        some [Tile.ground Direction.N, Tile.flag Direction.N 1] ∧
      tilesState.get_tiles (0, 0) =
        [Tile.ground Direction.N, Tile.flag Direction.N 1]) ∧
    (boardLookup tilesState._board (7, 7) = none ∧
      tilesState.get_tiles (7, 7) = [Tile.hole Direction.N] ∧
      tilesState.get_tiles (7, 7) ≠ []) :=
  ⟨⟨by decide, (C9_get_tiles tilesState (0, 0)).1 _ (by decide)⟩,
   ⟨by decide, ((C9_get_tiles tilesState (7, 7)).2 (by decide)).1,
    ((C9_get_tiles tilesState (7, 7)).2 (by decide)).2⟩⟩

/-- C10: every robot created at game start has direction North, lives 3, flags 0,
damages 4 (not 0), and its respawn anchor equal to its starting coordinates. -/
theorem C10_start_robots (cs : List (Int × Int)) (paths : List (String × String))
    (pick : Nat → Nat) (k : Nat) :
    ∀ r ∈ get_robots_to_start cs paths pick k,
      r.direction = Direction.N ∧ r.lives = 3 ∧ r.flags = 0 ∧ r.damages = 4 ∧
        r.start_coordinates = r.coordinates := by
  induction cs generalizing paths k with
  | nil => intro r h; simp [get_robots_to_start] at h
  | cons c rest ih =>
    intro r h
    match paths with
    | [] =>
      rw [get_robots_to_start] at h
      exact ih [] (k + 1) r h
    | p :: ps =>
      rw [get_robots_to_start] at h
      rcases List.mem_cons.mp h with he | hm
      · subst he
        exact ⟨rfl, rfl, rfl, rfl, rfl⟩
      · exact ih _ _ r hm

/-- C10 witness: a robot placed on (2,3) from a single avatar path. -/
theorem C10_start_robots_witness :
    Robot.init Direction.N emptyStr emptyStr (2, 3) ∈
      get_robots_to_start [(2, 3)] [(emptyStr, emptyStr)] (fun _ => 0) 0 ∧
    (Robot.init Direction.N emptyStr emptyStr (2, 3)).direction = Direction.N ∧
    (Robot.init Direction.N emptyStr emptyStr (2, 3)).lives = 3 ∧
    (Robot.init Direction.N emptyStr emptyStr (2, 3)).flags = 0 ∧
    (Robot.init Direction.N emptyStr emptyStr (2, 3)).damages = 4 ∧
    (Robot.init Direction.N emptyStr emptyStr (2, 3)).start_coordinates =
      (Robot.init Direction.N emptyStr emptyStr (2, 3)).coordinates := by
  have hm : Robot.init Direction.N emptyStr emptyStr (2, 3) ∈
      get_robots_to_start [(2, 3)] [(emptyStr, emptyStr)] (fun _ => 0) 0 := by
    decide
  have := C10_start_robots [(2, 3)] [(emptyStr, emptyStr)] (fun _ => 0) 0
    (Robot.init Direction.N emptyStr emptyStr (2, 3)) hm
  exact ⟨hm, this.1, this.2.1, this.2.2.1, this.2.2.2.1, this.2.2.2.2⟩


/-- The occupant of `sWalkBlocked` (index 1) cannot walk: its own wall check fails,
so its one-cell walk is the identity at every fuel. -/
theorem sWalkBlocked_occupant_stuck :
    ∀ f2, Robot.walk f2 1 1 Direction.N sWalkBlocked = sWalkBlocked := by
  intro f2
  match f2 with
  | 0 => rfl
  | n + 1 =>
    have hw : check_wall (getRobot sWalkBlocked 1).coordinates Direction.N
        sWalkBlocked = false := by decide
    exact walk_wall_stop sWalkBlocked 1 Direction.N hw (n + 1) 1

/-- C2 (amended): a card-driven walk step happens only if `check_wall` passes (no
wall out of the current cell and none into the destination); with an occupant on the
destination, the occupant is first walked one cell recursively, and if it ended up
off the destination the mover advances and the hole effect of its new cell is
evaluated; if the occupant could not move — in the amended sense that its failed
one-cell walk left the whole state unchanged — the mover does not advance and the
remaining steps leave the state unchanged (the loop continues but has no effect,
observationally a halt). -/
theorem C2_card_walk_step (s : State) (i : Nat) (d : Direction) (f dist : Nat) :
    (check_wall (getRobot s i).coordinates d s = false →
      Robot.walk f i dist d s = s) ∧
    (∀ j, check_wall (getRobot s i).coordinates d s = true →
      findRobotAt s.robots
          (get_next_coordinates (getRobot s i).coordinates d) = some j →
      (((getRobot (Robot.walk f j 1 d s) j).coordinates ≠
          get_next_coordinates (getRobot s i).coordinates d →
        Robot.walk (f + 1) i (dist + 1) d s =
          Robot.walk f i dist d
            (stateCheckHole i
              (setRobotCoords (Robot.walk f j 1 d s) i
                (get_next_coordinates (getRobot s i).coordinates d)))) ∧
       ((∀ f2, Robot.walk f2 j 1 d s = s) → Robot.walk f i dist d s = s))) ∧
    (check_wall (getRobot s i).coordinates d s = true →
      findRobotAt s.robots
          (get_next_coordinates (getRobot s i).coordinates d) = none →
      Robot.walk (f + 1) i (dist + 1) d s =
        Robot.walk f i dist d
          (stateCheckHole i (setRobotCoords s i
            (get_next_coordinates (getRobot s i).coordinates d)))) := by
  refine ⟨fun hw => walk_wall_stop s i d hw f dist,
    fun j hw hj => ⟨fun hne => ?_,
      fun hstuck => walk_blocked_stop s i j d hj hstuck f dist⟩,
    fun hw hnone => ?_⟩
  · simp only [Robot.walk, hw, if_true, hj]
    rw [if_pos hne]
  · simp only [Robot.walk, hw, if_true, hnone]

/-- C2 witness: on `sWalkBlocked` (occupant against a wall) the failed push leaves
the state unchanged and the whole 5-step walk of the mover is the identity. -/
theorem C2_card_walk_step_witness :
    check_wall (getRobot sWalkBlocked 0).coordinates Direction.N sWalkBlocked =
        true ∧
    findRobotAt sWalkBlocked.robots
        (get_next_coordinates (getRobot sWalkBlocked 0).coordinates Direction.N) =
      some 1 ∧
    Robot.walk 3 0 5 Direction.N sWalkBlocked = sWalkBlocked :=
  ⟨by decide, by decide,
    ((C2_card_walk_step sWalkBlocked 0 Direction.N 3 5).2.1 1 (by decide)
        (by decide)).2 sWalkBlocked_occupant_stuck⟩

/-- C2 counterexample: on `sWalkSentinel` the mover's destination is the sentinel
(-1,-1) where an inactive robot sits; each step the occupant "could not move" (it
dies into the sentinel again) and the mover does not advance — yet the remaining
steps are NOT abandoned: the occupant loses one life per remaining step (lives 2
after a 1-step walk, but 1 after a 2-step walk), so the step sequence does not halt
as the claim states. -/
theorem C2_counterexample :
    (getRobot (Robot.walk 5 0 1 Direction.W sWalkSentinel) 0).coordinates =
        (0, -1) ∧
    (getRobot (Robot.walk 5 0 1 Direction.W sWalkSentinel) 1).lives = 2 ∧
    (getRobot (Robot.walk 5 0 2 Direction.W sWalkSentinel) 0).coordinates =
        (0, -1) ∧
    (getRobot (Robot.walk 5 0 2 Direction.W sWalkSentinel) 1).lives = 1 := by
  decide

/-- C3 (amended): when the register parity does not match the pusher's configured
parity the state is unchanged; when it matches, the pusher performs a one-cell
effect-driven move opposite the tile's facing — so the robot is displaced exactly one
cell only when no wall blocks the move, no robot occupies the destination and no hole
swallows it there; a wall or an occupant leaves the state unchanged. -/
theorem C3_pusher_amended (s : State) (i : Nat) (pdir : Direction) (reg : Int)
    (hi : i < s.robots.length) :
    (s.register % 2 ≠ reg → Tile.push_robot (Tile.pusher pdir reg) i s = s) ∧
    (s.register % 2 = reg →
      Tile.push_robot (Tile.pusher pdir reg) i s =
        Robot.move i (pdir.get_new_direction Rotation.U_TURN) 1 s) ∧
    (s.register % 2 = reg →
      check_wall (getRobot s i).coordinates
          (pdir.get_new_direction Rotation.U_TURN) s = false →
      Tile.push_robot (Tile.pusher pdir reg) i s = s) ∧
    (s.register % 2 = reg →
      s.robots.any (fun r =>
        decide (r.coordinates =
          get_next_coordinates (getRobot s i).coordinates
            (pdir.get_new_direction Rotation.U_TURN))) = true →
      Tile.push_robot (Tile.pusher pdir reg) i s = s) ∧
    (s.register % 2 = reg →
      check_wall (getRobot s i).coordinates
          (pdir.get_new_direction Rotation.U_TURN) s = true →
      s.robots.any (fun r =>
        decide (r.coordinates =
          get_next_coordinates (getRobot s i).coordinates
            (pdir.get_new_direction Rotation.U_TURN))) = false →
      (s.get_tiles (get_next_coordinates (getRobot s i).coordinates
          (pdir.get_new_direction Rotation.U_TURN))).any Tile.isHole = false →
      (getRobot (Tile.push_robot (Tile.pusher pdir reg) i s) i).coordinates =
        get_next_coordinates (getRobot s i).coordinates
          (pdir.get_new_direction Rotation.U_TURN)) := by
  have hpush : s.register % 2 = reg →
      Tile.push_robot (Tile.pusher pdir reg) i s =
        Robot.move i (pdir.get_new_direction Rotation.U_TURN) 1 s := by
    intro h
    simp [Tile.push_robot, h]
  refine ⟨?_, hpush, ?_, ?_, ?_⟩
  · intro h
    simp [Tile.push_robot, h]
  · intro h hw
    rw [hpush h]
    exact move_wall_stop s i _ hw 1
  · intro h hocc
    rw [hpush h]
    exact move_occupied_skip s i _ 0 hocc
  · intro h hw hocc hhole
    rw [hpush h]
    exact move_one_clear s i _ hi hw hocc hhole

/-- C3 witness: on `pushStateFree` the odd pusher fires on round 1 and the robot is
displaced from (0,0) to (0,-1); the parity-mismatch direction is also exercised with
an even pusher, which leaves the state unchanged. -/
theorem C3_pusher_amended_witness :
    pushStateFree.register % 2 = 1 ∧
    (getRobot (Tile.push_robot (Tile.pusher Direction.N 1) 0 pushStateFree)
        0).coordinates = (0, -1) ∧
    Tile.push_robot (Tile.pusher Direction.N 0) 0 pushStateFree = pushStateFree :=
  ⟨by decide,
    ((C3_pusher_amended pushStateFree 0 Direction.N 1
          (by decide)).2.2.2.2 (by decide) (by decide) (by decide)
        (by decide)).trans (by decide),
    (C3_pusher_amended pushStateFree 0 Direction.N 0 (by decide)).1 (by decide)⟩

/-- C3 counterexample: on `pushStateBlocked` the register parity matches the odd
pusher, yet the robot is not displaced at all — a wall on its own tile blocks the
push — refuting "displaces the robot exactly one cell ... when the register's parity
matches". -/
theorem C3_counterexample :
    pushStateBlocked.register % 2 = 1 ∧
    Tile.push_robot (Tile.pusher Direction.N 1) 0 pushStateBlocked =
      pushStateBlocked ∧
    (getRobot pushStateBlocked 0).coordinates = (0, 0) := by
  decide

/-- C5: the end-of-round sweep runs exactly when the round counter equals 5; after
`set_robots_for_new_turn`, every robot with zero lives is gone from the robot
sequence, every surviving robot that was inactive is at its respawn anchor with zero
damage facing North, every surviving active robot is kept unchanged, and every robot
of the new sequence has positive lives. -/
theorem C5_end_of_round (s : State) :
    (s.game_round ≠ 5 → end_of_round_check s = s) ∧
    (s.game_round = 5 → end_of_round_check s = set_robots_for_new_turn s) ∧
    (∀ r, r ∈ s.robots → r.lives = 0 →
      r ∉ (set_robots_for_new_turn s).robots) ∧
    (∀ r, r ∈ s.robots → 0 < r.lives → r.inactive = true →
      rebootRobot r ∈ (set_robots_for_new_turn s).robots) ∧
    (∀ r, r ∈ s.robots → 0 < r.lives → r.inactive = false →
      r ∈ (set_robots_for_new_turn s).robots) ∧
    (∀ r2, r2 ∈ (set_robots_for_new_turn s).robots → 0 < r2.lives) := by
  have hpos : ∀ r2, r2 ∈ (set_robots_for_new_turn s).robots → 0 < r2.lives := by
    intro r2 h
    simp only [set_robots_for_new_turn, List.mem_map] at h
    obtain ⟨a, ha, hfa⟩ := h
    have ha2 := List.mem_filter.mp ha
    have halives : 0 < a.lives := by simpa using ha2.2
    by_cases hin : a.inactive = true
    · rw [← hfa]
      simpa [hin, rebootRobot] using halives
    · have hin2 : a.inactive = false := by simpa using hin
      rw [← hfa]
      simpa [hin2] using halives
  refine ⟨?_, ?_, ?_, ?_, ?_, hpos⟩
  · intro h
    simp [end_of_round_check, h]
  · intro h
    simp [end_of_round_check, h]
  · intro r _ hr0 hmem
    have := hpos r hmem
    omega
  · intro r hr hl hin
    have hf : r ∈ s.robots.filter (fun r => decide (0 < r.lives)) :=
      List.mem_filter.mpr ⟨hr, by simpa using hl⟩
    have hmm := List.mem_map_of_mem (fun r : Robot =>
      if r.inactive then rebootRobot r else r) hf
    simpa [set_robots_for_new_turn, rebootRobot, hin] using hmm
  · intro r hr hl hin
    have hf : r ∈ s.robots.filter (fun r => decide (0 < r.lives)) :=
      List.mem_filter.mpr ⟨hr, by simpa using hl⟩
    have hmm := List.mem_map_of_mem (fun r : Robot =>
      if r.inactive then rebootRobot r else r) hf
    simpa [set_robots_for_new_turn, rebootRobot, hin] using hmm

/-- C5 witness: on `sweepState` (round 5) the zero-lives robot disappears, the
inactive survivor respawns at its anchor (3,4) with zero damage facing North, and the
active robot is kept. -/
theorem C5_end_of_round_witness :
    sweepState.game_round = 5 ∧
    end_of_round_check sweepState = set_robots_for_new_turn sweepState ∧
    rDead ∈ sweepState.robots ∧ rDead.lives = 0 ∧
    rDead ∉ (set_robots_for_new_turn sweepState).robots ∧
    rebootRobot rInactive ∈ (set_robots_for_new_turn sweepState).robots ∧
    rActive ∈ (set_robots_for_new_turn sweepState).robots :=
  ⟨by decide,
    (C5_end_of_round sweepState).2.1 (by decide),
    by decide, by decide,
    (C5_end_of_round sweepState).2.2.1 rDead (by decide) (by decide),
    (C5_end_of_round sweepState).2.2.2.1 rInactive (by decide) (by decide)
      (by decide),
    (C5_end_of_round sweepState).2.2.2.2.1 rActive (by decide) (by decide)
      (by decide)⟩

/-- C6 (amended): the hole check leaves a robot on a hole-free tile stack fully
unchanged; a robot not already at the sentinel whose stack contains a hole becomes
inactive, loses exactly one life and moves to the sentinel (-1,-1).  (A robot already
at the sentinel can sit over a defined stack whose first hole is preceded by a
non-hole tile: the scan breaks at the inactive robot before the hole — see the
counterexample.) -/
theorem C6_hole_check (r : Robot) (s : State) :
    ((s.get_tiles r.coordinates).any Tile.isHole = false → r.check_hole s = r) ∧
    (r.coordinates ≠ (-1, -1) →
      (s.get_tiles r.coordinates).any Tile.isHole = true →
      (r.check_hole s).lives = r.lives - 1 ∧
      (r.check_hole s).coordinates = (-1, -1) ∧
      (r.check_hole s).inactive = true) := by
  constructor
  · intro h
    exact holeScan_no_hole _ r h
  · intro hc h
    have hdie : r.check_hole s = r.die := holeScan_hole _ r hc h
    rw [hdie]
    exact ⟨rfl, rfl, by simp [Robot.die, Robot.inactive]⟩

/-- C6 witness: on `tilesState`, the robot on the hole-free cell (0,0) is unchanged,
and the robot off the board (implicit hole) loses exactly one life and lands on the
sentinel. -/
theorem C6_hole_check_witness :
    ((tilesState.get_tiles rOnGround.coordinates).any Tile.isHole = false ∧
      rOnGround.check_hole tilesState = rOnGround) ∧
    (rOffBoard.coordinates ≠ (-1, -1) ∧
      (tilesState.get_tiles rOffBoard.coordinates).any Tile.isHole = true ∧
      (rOffBoard.check_hole tilesState).lives = rOffBoard.lives - 1 ∧
      (rOffBoard.check_hole tilesState).coordinates = (-1, -1)) :=
  ⟨⟨by decide, (C6_hole_check rOnGround tilesState).1 (by decide)⟩,
   ⟨by decide, by decide,
    ((C6_hole_check rOffBoard tilesState).2 (by decide) (by decide)).1,
    ((C6_hole_check rOffBoard tilesState).2 (by decide) (by decide)).2.1⟩⟩

/-- C6 counterexample: on `sHoleTrap` the robot rests on the defined cell (-1,-1)
whose stack contains a hole tile, yet the hole check leaves it unchanged (its lives
stay 3): the scan stops at the already-inactive robot before reaching the hole,
refuting "decrements its lives by exactly one" as universally stated. -/
theorem C6_counterexample :
    (sHoleTrap.get_tiles (getRobot sHoleTrap 0).coordinates).any Tile.isHole =
        true ∧
    (getRobot sHoleTrap 0).check_hole sHoleTrap = getRobot sHoleTrap 0 ∧
    ((getRobot sHoleTrap 0).check_hole sHoleTrap).lives = 3 := by
  decide

end Roboprojekt
